import Mathlib

/-!
# Cat-Feeder: container position controller

A shallow embedding of `src/cat_feeder.cpp`: the two-slot container
controller, its EEPROM-backed configuration and the request handlers
`handleServoMove`, `handleEditContainerPosition`, `handleChangeContainer`
and `handleToggleContainer`, together with `changeContainer`,
`changeContainerSmooth` and the load performed by `setup`.

Conventions of the embedding.

* A `uint8_t` is a `Nat` below 256; every operation that can leave that
  range is written with an explicit `% 256`.
* An `int` (the result of `String::toInt`) is an `Int`.
* Side effects are recorded, in program order, as a list of `Event`s.
* The EEPROM is a map from byte address to byte value. `EEPROM.put`
  changes the map; `EEPROM.commit` is recorded as an event.
* A run of the device is `setup` followed by a list of `Command`s, served
  one at a time by `handleClient`.
* The two slot-change handlers also have a statement-level form, a list of
  `Step`s, in which the assignment to `selectedContainer` is a step.
-/

namespace CatFeeder

/-! ## Data model -/

/-- The struct `ContainerLocations`: two `uint8_t` servo angles. -/
structure ContainerLocations where
  containerOneLocation : Nat
  containerTwoLocation : Nat
  deriving DecidableEq, Repr

/-- Enumerator `CONTAINER_ONE = 1`. -/
def CONTAINER_ONE : Nat := 1

/-- Enumerator `CONTAINER_TWO`, the successor of `CONTAINER_ONE`. -/
def CONTAINER_TWO : Nat := 2

/-- Enumerator `MAX_CONTAINER`, the successor of `CONTAINER_TWO`. -/
def MAX_CONTAINER : Nat := 3

/-- The value of `sizeof(ContainerLocations)`: two one-byte fields. -/
def SIZEOF_CONTAINER_LOCATIONS : Nat := 2

/-- The value of `sizeof(int)` on the 32-bit target. -/
def SIZEOF_INT : Nat := 4

/-- Macro `EEPROM_CONTAINER_LOCATIONS`. -/
def EEPROM_CONTAINER_LOCATIONS : Nat := 0

/-- Macro `EEPROM_SELECTED_CONTAINER`. -/
def EEPROM_SELECTED_CONTAINER : Nat :=
  EEPROM_CONTAINER_LOCATIONS + SIZEOF_CONTAINER_LOCATIONS

/-- Macro `SMOOTH_STEPS`. -/
def SMOOTH_STEPS : Nat := 5

/-- Macro `SMOOTH_DELAY`. -/
def SMOOTH_DELAY : Nat := 100

/-- The size handed to `EEPROM.begin` in `setup`. -/
def EEPROM_SIZE : Nat := 512

/-- The two bodies the handlers pass to `server.send` with status 200:
the success body and the invalid-params body. -/
inductive Response where
  | success
  | invalidParams
  deriving DecidableEq, Repr

/-- The observable effects of the program, in the order they happen. -/
inductive Event where
  | servoWrite (pos : Nat)
  | delay (ms : Nat)
  | eepromPut (addr : Nat) (bytes : List Nat)
  | eepromCommit
  | send (r : Response)
  deriving DecidableEq, Repr

/-- The static variables `container` and `selectedContainer`, and the
content of the EEPROM. -/
structure State where
  container : ContainerLocations
  selectedContainer : Nat
  eeprom : Nat → Nat

/-- The result of running a handler: the state it leaves and the effects
it performed, first effect first. -/
structure Outcome where
  state : State
  events : List Event

/-! ## Machine arithmetic and the EEPROM -/

/-- Conversion of an `int` to `uint8_t`: reduction modulo 256. -/
def toU8 (x : Int) : Nat := (x % 256).toNat

/-- The object representation of an `int`: four bytes, least significant
first (two's complement). -/
def intBytes (x : Int) : List Nat :=
  [toU8 x, toU8 (x / 256), toU8 (x / 65536), toU8 (x / 16777216)]

/-- The object representation of a `ContainerLocations`. -/
def containerBytes (c : ContainerLocations) : List Nat :=
  [c.containerOneLocation, c.containerTwoLocation]

/-- The library call `EEPROM.put(addr, value)` on the bytes of `value`:
writes them at `addr`, `addr + 1`, ... unless they do not fit. -/
def eepromPut (mem : Nat → Nat) (addr : Nat) (bytes : List Nat) : Nat → Nat :=
  if addr + bytes.length > EEPROM_SIZE then mem
  else fun a =>
    if addr ≤ a ∧ a < addr + bytes.length then bytes.getD (a - addr) 0 else mem a

/-- The library call `EEPROM.get(EEPROM_CONTAINER_LOCATIONS, container)`. -/
def eepromGetContainer (mem : Nat → Nat) : ContainerLocations :=
  { containerOneLocation := mem EEPROM_CONTAINER_LOCATIONS
    containerTwoLocation := mem (EEPROM_CONTAINER_LOCATIONS + 1) }

/-- The library call `EEPROM.get(EEPROM_SELECTED_CONTAINER, selectedContainer)`:
one byte, since `selectedContainer` is a `uint8_t`. -/
def eepromGetSelected (mem : Nat → Nat) : Nat :=
  mem EEPROM_SELECTED_CONTAINER

/-! ## The controller -/

/-- The expression `newCon == CONTAINER_TWO ? containerTwoLocation :
containerOneLocation`, shared by `changeContainer` and
`changeContainerSmooth`. -/
def newPosOf (c : ContainerLocations) (newCon : Nat) : Nat :=
  if newCon = CONTAINER_TWO then c.containerTwoLocation else c.containerOneLocation

/-- The expression `newCon == CONTAINER_TWO ? containerOneLocation :
containerTwoLocation` of `changeContainerSmooth`. -/
def prevPosOf (c : ContainerLocations) (newCon : Nat) : Nat :=
  if newCon = CONTAINER_TWO then c.containerOneLocation else c.containerTwoLocation

/-- Function `changeContainer`: one direct servo command. -/
def changeContainer (c : ContainerLocations) (newCon : Nat) : List Event :=
  [Event.servoWrite (newPosOf c newCon)]

/-- The first `for` loop of `changeContainerSmooth`, as a function of the
iterations still to run. The counter `i` runs from 0 up to `steps`, which
is at most 255, so it never wraps and the body runs `steps` times. -/
def stepUp : Nat → Nat → List Event
  | 0, _ => []
  | n + 1, currPos =>
    Event.servoWrite ((currPos + SMOOTH_STEPS) % 256) :: Event.delay SMOOTH_DELAY ::
      stepUp n ((currPos + SMOOTH_STEPS) % 256)

/-- The second `for` loop of `changeContainerSmooth`; `currPos -= 5` on a
`uint8_t` is addition of `256 - 5` modulo 256. -/
def stepDown : Nat → Nat → List Event
  | 0, _ => []
  | n + 1, currPos =>
    Event.servoWrite ((currPos + (256 - SMOOTH_STEPS)) % 256) :: Event.delay SMOOTH_DELAY ::
      stepDown n ((currPos + (256 - SMOOTH_STEPS)) % 256)

/-- The statements `steps = distance / SMOOTH_STEPS; steps--;` on the
`uint8_t` variable `steps`. -/
def stepCount (distance : Nat) : Nat :=
  ((distance / SMOOTH_STEPS) % 256 + 255) % 256

/-- Function `changeContainerSmooth`. -/
def changeContainerSmooth (c : ContainerLocations) (prevCon newCon : Nat) : List Event :=
  if prevCon = newCon then []
  else
    let newPos := newPosOf c newCon
    let prevPos := prevPosOf c newCon
    if newPos > prevPos then
      stepUp (stepCount (newPos - prevPos)) prevPos ++ [Event.servoWrite newPos]
    else
      stepDown (stepCount (prevPos - newPos)) prevPos ++ [Event.servoWrite newPos]

/-- The part of `setup` that concerns the controller: load both records
from the EEPROM and snap the servo to the loaded selection. -/
def setup (mem : Nat → Nat) : Outcome :=
  let container := eepromGetContainer mem
  let selectedContainer := eepromGetSelected mem
  { state := { container := container, selectedContainer := selectedContainer, eeprom := mem }
    events := changeContainer container selectedContainer }

/-- Handler `handleServoMove`, on the parsed argument `position`. -/
def handleServoMove (s : State) (position : Int) : Outcome :=
  if position ≥ 0 ∧ position ≤ 180 then
    { state := s, events := [Event.servoWrite position.toNat, Event.send Response.success] }
  else
    { state := s, events := [Event.send Response.invalidParams] }

/-- Handler `handleEditContainerPosition`, on the parsed arguments `c1`
and `c2`. -/
def handleEditContainerPosition (s : State) (posC1 posC2 : Int) : Outcome :=
  if posC1 ≤ 180 ∧ posC1 ≥ 0 ∧ posC2 ≤ 180 ∧ posC1 ≥ 0 then
    let container : ContainerLocations :=
      { containerOneLocation := toU8 posC1, containerTwoLocation := toU8 posC2 }
    { state :=
        { container := container
          selectedContainer := s.selectedContainer
          eeprom := eepromPut s.eeprom EEPROM_CONTAINER_LOCATIONS (containerBytes container) }
      events :=
        [Event.eepromPut EEPROM_CONTAINER_LOCATIONS (containerBytes container),
         Event.send Response.success,
         Event.eepromCommit] }
  else
    { state := s, events := [Event.send Response.invalidParams] }

/-- Handler `handleChangeContainer`, on the parsed argument `container`. -/
def handleChangeContainer (s : State) (containerNum : Int) : Outcome :=
  if containerNum < (MAX_CONTAINER : Int) ∧ containerNum ≥ (CONTAINER_ONE : Int) then
    let mem := eepromPut s.eeprom EEPROM_SELECTED_CONTAINER (intBytes containerNum)
    let pre :=
      [Event.eepromPut EEPROM_SELECTED_CONTAINER (intBytes containerNum),
       Event.eepromCommit,
       Event.send Response.success]
    if containerNum ≠ (s.selectedContainer : Int) then
      { state :=
          { container := s.container, selectedContainer := toU8 containerNum, eeprom := mem }
        events := pre ++ changeContainerSmooth s.container s.selectedContainer (toU8 containerNum) }
    else
      { state := { container := s.container, selectedContainer := s.selectedContainer, eeprom := mem }
        events := pre }
  else
    { state := s, events := [Event.send Response.invalidParams] }

/-- Handler `handleToggleContainer`. -/
def handleToggleContainer (s : State) : Outcome :=
  let newContainer := if s.selectedContainer = CONTAINER_ONE then CONTAINER_TWO else CONTAINER_ONE
  { state :=
      { container := s.container
        selectedContainer := newContainer
        eeprom := eepromPut s.eeprom EEPROM_SELECTED_CONTAINER [newContainer] }
    events :=
      [Event.eepromPut EEPROM_SELECTED_CONTAINER [newContainer],
       Event.eepromCommit,
       Event.send Response.success] ++
      changeContainerSmooth s.container s.selectedContainer newContainer }

/-! ## Observations on an event list -/

/-- The angles passed to `servo.write`, in order. -/
def servoCommands : List Event → List Nat
  | [] => []
  | Event.servoWrite p :: es => p :: servoCommands es
  | _ :: es => servoCommands es

/-- The responses passed to `server.send`, in order. -/
def responses : List Event → List Response
  | [] => []
  | Event.send r :: es => r :: responses es
  | _ :: es => responses es

/-- A `uint8_t` value. -/
def IsU8 (n : Nat) : Prop := n < 256

/-- An angle the servo accepts. -/
def InRange (n : Nat) : Prop := n ≤ 180

instance (n : Nat) : Decidable (IsU8 n) := by unfold IsU8; infer_instance

instance (n : Nat) : Decidable (InRange n) := by unfold InRange; infer_instance

/-- The state `setup` loads from an EEPROM that holds the angles `one` and
`two` in bytes 0 and 1, the selection `sel` in byte 2 and the erased value
255 in every other byte. -/
def mkState (one two sel : Nat) : State :=
  { container := { containerOneLocation := one, containerTwoLocation := two }
    selectedContainer := sel
    eeprom := fun a => if a = 0 then one else if a = 1 then two else if a = 2 then sel else 255 }

/-! ## Requests and runs -/

/-- The expression `selectedContainer == CONTAINER_ONE ? CONTAINER_TWO :
CONTAINER_ONE` that `handleToggleContainer` evaluates. -/
def otherContainer (sel : Nat) : Nat :=
  if sel = CONTAINER_ONE then CONTAINER_TWO else CONTAINER_ONE

/-- A selection that names one of the two containers of `enum Container`. -/
def ValidSelection (sel : Nat) : Prop := sel = CONTAINER_ONE ∨ sel = CONTAINER_TWO

instance (sel : Nat) : Decidable (ValidSelection sel) := by
  unfold ValidSelection; infer_instance

/-- A request to one of the four routes that reach the controller, with
its parsed arguments. -/
inductive Command where
  | servoMove (position : Int)
  | editContainerPosition (posC1 posC2 : Int)
  | changeContainer (containerNum : Int)
  | toggleContainer
  deriving DecidableEq, Repr

/-- One turn of `loop`: `server.handleClient` dispatches the request to
the handler registered for its route in `setup`. -/
def handleClient (s : State) : Command → Outcome
  | Command.servoMove position => handleServoMove s position
  | Command.editContainerPosition posC1 posC2 => handleEditContainerPosition s posC1 posC2
  | Command.changeContainer containerNum => handleChangeContainer s containerNum
  | Command.toggleContainer => handleToggleContainer s

/-- The state after serving a sequence of requests, one at a time. -/
def runCommands (s : State) : List Command → State
  | [] => s
  | c :: cs => runCommands (handleClient s c).state cs

/-! ## Statement-level view of the slot-change handlers

The handlers above return the final state and the effects. To speak about
when the static variable `selectedContainer` is assigned relative to the
effects, the two slot-change handlers are also given as the sequence of
their statements, an assignment being a step of its own. -/

/-- One executed statement: an effect, or an assignment to one of the two
static variables. -/
inductive Step where
  | effect (e : Event)
  | setSelected (v : Nat)
  | setContainer (c : ContainerLocations)
  deriving DecidableEq, Repr

/-- The statements `handleChangeContainer` executes, in order. -/
def handleChangeContainerSteps (s : State) (containerNum : Int) : List Step :=
  if containerNum < (MAX_CONTAINER : Int) ∧ containerNum ≥ (CONTAINER_ONE : Int) then
    [Step.effect (Event.eepromPut EEPROM_SELECTED_CONTAINER (intBytes containerNum)),
     Step.effect Event.eepromCommit,
     Step.effect (Event.send Response.success)] ++
    (if containerNum ≠ (s.selectedContainer : Int) then
      (changeContainerSmooth s.container s.selectedContainer (toU8 containerNum)).map
          Step.effect ++
        [Step.setSelected (toU8 containerNum)]
     else [])
  else
    [Step.effect (Event.send Response.invalidParams)]

/-- The statements `handleToggleContainer` executes, in order. -/
def handleToggleContainerSteps (s : State) : List Step :=
  [Step.effect (Event.eepromPut EEPROM_SELECTED_CONTAINER [otherContainer s.selectedContainer]),
   Step.effect Event.eepromCommit,
   Step.effect (Event.send Response.success)] ++
  (changeContainerSmooth s.container s.selectedContainer
      (otherContainer s.selectedContainer)).map Step.effect ++
  [Step.setSelected (otherContainer s.selectedContainer)]

/-- Execution of one statement on the state and the effects so far. -/
def applyStep (o : Outcome) : Step → Outcome
  | Step.effect (Event.eepromPut addr bytes) =>
    { state :=
        { container := o.state.container
          selectedContainer := o.state.selectedContainer
          eeprom := eepromPut o.state.eeprom addr bytes }
      events := o.events ++ [Event.eepromPut addr bytes] }
  | Step.effect e => { state := o.state, events := o.events ++ [e] }
  | Step.setSelected v =>
    { state :=
        { container := o.state.container, selectedContainer := v, eeprom := o.state.eeprom }
      events := o.events }
  | Step.setContainer c =>
    { state :=
        { container := c
          selectedContainer := o.state.selectedContainer
          eeprom := o.state.eeprom }
      events := o.events }

/-- Execution of a sequence of statements from a state. -/
def runSteps (s : State) (steps : List Step) : Outcome :=
  steps.foldl applyStep { state := s, events := [] }

/-- An effect of the stepping loops: a servo command or a delay. -/
def IsMotion : Event → Prop
  | Event.servoWrite _ => True
  | Event.delay _ => True
  | _ => False

set_option maxRecDepth 100000

/-! ## Lemmas on the stepping loops -/

theorem servoCommands_append (l₁ l₂ : List Event) :
    servoCommands (l₁ ++ l₂) = servoCommands l₁ ++ servoCommands l₂ := by
  induction l₁ with
  | nil => rfl
  | cons e es ih => cases e <;> simp [servoCommands, ih]

theorem servoCommands_stepUp (n p : Nat) :
    servoCommands (stepUp n p) = (List.range n).map (fun k => (p + 5 * (k + 1)) % 256) := by
  induction n generalizing p with
  | zero => rfl
  | succ n ih =>
    rw [List.range_succ_eq_map]
    simp only [stepUp, servoCommands, ih, List.map_cons, List.map_map, SMOOTH_STEPS]
    refine congrArg₂ _ (by omega) (List.map_congr_left fun k _ => ?_)
    simp only [Function.comp]
    omega

theorem servoCommands_stepDown (n p : Nat) :
    servoCommands (stepDown n p) = (List.range n).map (fun k => (p + 251 * (k + 1)) % 256) := by
  induction n generalizing p with
  | zero => rfl
  | succ n ih =>
    rw [List.range_succ_eq_map]
    simp only [stepDown, servoCommands, ih, List.map_cons, List.map_map, SMOOTH_STEPS]
    refine congrArg₂ _ (by omega) (List.map_congr_left fun k _ => ?_)
    simp only [Function.comp]
    omega

theorem stepCount_lt (d : Nat) : stepCount d < 256 := by
  unfold stepCount; omega

theorem stepCount_of_ge (d : Nat) (h5 : 5 ≤ d) (hd : d < 256) : stepCount d = d / 5 - 1 := by
  unfold stepCount SMOOTH_STEPS; omega

theorem stepCount_of_lt (d : Nat) (h5 : d < 5) : stepCount d = 255 := by
  unfold stepCount SMOOTH_STEPS; omega

/-- The servo commands of `changeContainerSmooth` between two different
slot ids: the intermediate positions of the branch taken, then the target. -/
theorem servoCommands_changeContainerSmooth (c : ContainerLocations) (prevCon newCon : Nat)
    (hne : prevCon ≠ newCon) :
    servoCommands (changeContainerSmooth c prevCon newCon) =
      (if newPosOf c newCon > prevPosOf c newCon then
        (List.range (stepCount (newPosOf c newCon - prevPosOf c newCon))).map
          (fun k => (prevPosOf c newCon + 5 * (k + 1)) % 256)
       else
        (List.range (stepCount (prevPosOf c newCon - newPosOf c newCon))).map
          (fun k => (prevPosOf c newCon + 251 * (k + 1)) % 256))
      ++ [newPosOf c newCon] := by
  unfold changeContainerSmooth
  rw [if_neg hne]
  by_cases h : newPosOf c newCon > prevPosOf c newCon
  · simp only [h, if_true, servoCommands_append, servoCommands_stepUp, servoCommands]
  · simp only [h, if_false, servoCommands_append, servoCommands_stepDown, servoCommands]

/-- The servo commands of a toggle are those of its smooth transition. -/
theorem servoCommands_handleToggleContainer (s : State) :
    servoCommands (handleToggleContainer s).events =
      servoCommands (changeContainerSmooth s.container s.selectedContainer
        (handleToggleContainer s).state.selectedContainer) := by
  simp [handleToggleContainer, servoCommands]

/-- The slot a toggle moves to is never the slot it starts from. -/
theorem toggle_target_ne (s : State) :
    s.selectedContainer ≠ (handleToggleContainer s).state.selectedContainer := by
  simp only [handleToggleContainer, CONTAINER_ONE, CONTAINER_TWO]
  split <;> omega


/-! ## Smooth transitions -/

/-- C1 (fails on the code): with both calibration angles in range, here
10 and 12, a toggle from slot 1 commands angles outside [0,180]. The step
count 0 is decremented to 255, so the loop walks 15, 20, ... past 180; the
35th command is 185. -/
theorem toggle_near_angles_leaves_range :
    InRange (mkState 10 12 1).container.containerOneLocation ∧
    InRange (mkState 10 12 1).container.containerTwoLocation ∧
    (servoCommands (handleToggleContainer (mkState 10 12 1)).events).get? 34 = some 185 ∧
    ¬ InRange 185 := by
  decide

/-- C2: a smooth transition between two different slot ids issues at
least one and at most 256 servo commands, and the last one is the
calibrated angle of the new slot, for every calibration table and so for
every distance between the two angles. The same holds for the commands of
a toggle and of a select of a slot other than the current one. -/
theorem smooth_change_ends_at_target (s : State) (prevCon newCon : Nat) (n : Int)
    (hne : prevCon ≠ newCon) (hn : n = 1 ∨ n = 2) (hsel : n ≠ (s.selectedContainer : Int)) :
    ((servoCommands (changeContainerSmooth s.container prevCon newCon)).getLast? =
        some (newPosOf s.container newCon) ∧
      1 ≤ (servoCommands (changeContainerSmooth s.container prevCon newCon)).length ∧
      (servoCommands (changeContainerSmooth s.container prevCon newCon)).length ≤ 256) ∧
    ((servoCommands (handleToggleContainer s).events).getLast? =
        some (newPosOf s.container (handleToggleContainer s).state.selectedContainer) ∧
      (servoCommands (handleToggleContainer s).events).length ≤ 256) ∧
    ((servoCommands (handleChangeContainer s n).events).getLast? =
        some (newPosOf s.container n.toNat) ∧
      (handleChangeContainer s n).state.selectedContainer = n.toNat ∧
      (servoCommands (handleChangeContainer s n).events).length ≤ 256) := by
  have key : ∀ p q : Nat, p ≠ q →
      (servoCommands (changeContainerSmooth s.container p q)).getLast? =
          some (newPosOf s.container q) ∧
        1 ≤ (servoCommands (changeContainerSmooth s.container p q)).length ∧
        (servoCommands (changeContainerSmooth s.container p q)).length ≤ 256 := by
    intro p q hpq
    rw [servoCommands_changeContainerSmooth _ _ _ hpq]
    refine ⟨by simp, by simp, ?_⟩
    have h1 := stepCount_lt (newPosOf s.container q - prevPosOf s.container q)
    have h2 := stepCount_lt (prevPosOf s.container q - newPosOf s.container q)
    split <;> simp <;> omega
  refine ⟨key _ _ hne, ?_, ?_⟩
  · rw [servoCommands_handleToggleContainer]
    exact ⟨(key _ _ (toggle_target_ne s)).1, (key _ _ (toggle_target_ne s)).2.2⟩
  · have hu : toU8 n = n.toNat := by
      rcases hn with h | h <;> subst h <;> rfl
    have hsel' : s.selectedContainer ≠ n.toNat := by
      rcases hn with h | h <;> subst h <;> simp at hsel ⊢ <;> omega
    have hcond : n < (MAX_CONTAINER : Int) ∧ n ≥ (CONTAINER_ONE : Int) := by
      rcases hn with h | h <;> subst h <;> decide
    simp only [handleChangeContainer, if_pos hcond, if_pos hsel, hu]
    simp only [servoCommands_append, servoCommands, List.nil_append]
    exact ⟨(key _ _ hsel').1, trivial, (key _ _ hsel').2.2⟩

/-- C2, at a concrete input: angles 10 and 12 (distance 2), toggle and
select from slot 1 to slot 2. -/
theorem smooth_change_ends_at_target_witness :
    ((1 : Nat) ≠ 2 ∧ ((2 : Int) = 1 ∨ (2 : Int) = 2) ∧
      (2 : Int) ≠ ((mkState 10 12 1).selectedContainer : Int)) ∧
    (servoCommands (handleToggleContainer (mkState 10 12 1)).events).getLast? = some 12 ∧
    (servoCommands (handleChangeContainer (mkState 10 12 1) 2).events).getLast? = some 12 :=
  ⟨⟨by decide, by decide, by decide⟩,
    (smooth_change_ends_at_target (mkState 10 12 1) 1 2 2 (by decide) (by decide)
      (by decide)).2.1.1,
    (smooth_change_ends_at_target (mkState 10 12 1) 1 2 2 (by decide) (by decide)
      (by decide)).2.2.1⟩

/-- C3 (fails on the code): with both calibration angles in range, here
10 and 12, a toggle from slot 1 has target 12 above start 10, yet its first
command, 15, already lies beyond the target, and the sequence is not
increasing: command 255 is followed by command 4. -/
theorem toggle_near_angles_overshoots :
    InRange (mkState 10 12 1).container.containerOneLocation ∧
    InRange (mkState 10 12 1).container.containerTwoLocation ∧
    prevPosOf (mkState 10 12 1).container 2 = 10 ∧
    newPosOf (mkState 10 12 1).container 2 = 12 ∧
    (servoCommands (handleToggleContainer (mkState 10 12 1)).events).head? = some 15 ∧
    (servoCommands (handleToggleContainer (mkState 10 12 1)).events).get? 48 = some 255 ∧
    (servoCommands (handleToggleContainer (mkState 10 12 1)).events).get? 49 = some 4 ∧
    (servoCommands (handleToggleContainer (mkState 10 12 1)).events).getLast? = some 12 := by
  decide

/-- C4: when the two calibrated angles are at distance `d` of at least 5,
the servo commands of a smooth transition are the `d / 5 - 1` intermediate
positions `start + 5k` (target above start) or `start - 5k` (target below
start), for `k = 1, ..., d / 5 - 1`, followed by the target: `d / 5`
commands in all. -/
theorem smooth_change_far_commands (c : ContainerLocations) (prevCon newCon : Nat)
    (hne : prevCon ≠ newCon)
    (h1 : IsU8 c.containerOneLocation) (h2 : IsU8 c.containerTwoLocation) :
    (prevPosOf c newCon + 5 ≤ newPosOf c newCon →
      servoCommands (changeContainerSmooth c prevCon newCon) =
          (List.range ((newPosOf c newCon - prevPosOf c newCon) / 5 - 1)).map
            (fun k => prevPosOf c newCon + 5 * (k + 1)) ++ [newPosOf c newCon] ∧
        (servoCommands (changeContainerSmooth c prevCon newCon)).length =
          (newPosOf c newCon - prevPosOf c newCon) / 5) ∧
    (newPosOf c newCon + 5 ≤ prevPosOf c newCon →
      servoCommands (changeContainerSmooth c prevCon newCon) =
          (List.range ((prevPosOf c newCon - newPosOf c newCon) / 5 - 1)).map
            (fun k => prevPosOf c newCon - 5 * (k + 1)) ++ [newPosOf c newCon] ∧
        (servoCommands (changeContainerSmooth c prevCon newCon)).length =
          (prevPosOf c newCon - newPosOf c newCon) / 5) := by
  have hnew : newPosOf c newCon < 256 := by
    unfold newPosOf; unfold IsU8 at h1 h2; split <;> assumption
  have hprev : prevPosOf c newCon < 256 := by
    unfold prevPosOf; unfold IsU8 at h1 h2; split <;> assumption
  rw [servoCommands_changeContainerSmooth c prevCon newCon hne]
  generalize newPosOf c newCon = t at hnew ⊢
  generalize prevPosOf c newCon = p at hprev ⊢
  constructor
  · intro hd
    have hgt : t > p := by omega
    rw [if_pos hgt, stepCount_of_ge (t - p) (by omega) (by omega)]
    refine ⟨?_, ?_⟩
    · congr 1
      refine List.map_congr_left fun k hk => ?_
      have hk' := List.mem_range.1 hk
      omega
    · simp; omega
  · intro hd
    have hgt : ¬ t > p := by omega
    rw [if_neg hgt, stepCount_of_ge (p - t) (by omega) (by omega)]
    refine ⟨?_, ?_⟩
    · congr 1
      refine List.map_congr_left fun k hk => ?_
      have hk' := List.mem_range.1 hk
      omega
    · simp; omega

/-- C4, at the table with angles 20 and 160: from slot 1 to slot 2 the
commands are 25, 30, ..., 155 and then 160. -/
theorem smooth_change_far_commands_witness :
    ((1 : Nat) ≠ 2 ∧ IsU8 20 ∧ IsU8 160) ∧
    servoCommands (changeContainerSmooth ⟨20, 160⟩ 1 2) =
      [25, 30, 35, 40, 45, 50, 55, 60, 65, 70, 75, 80, 85, 90, 95, 100, 105, 110, 115,
        120, 125, 130, 135, 140, 145, 150, 155, 160] ∧
    (servoCommands (changeContainerSmooth ⟨20, 160⟩ 1 2)).length = 140 / 5 :=
  ⟨⟨by decide, by decide, by decide⟩,
    ((smooth_change_far_commands ⟨20, 160⟩ 1 2 (by decide) (by decide) (by decide)).1
      (by decide)).1.trans (by decide),
    ((smooth_change_far_commands ⟨20, 160⟩ 1 2 (by decide) (by decide) (by decide)).1
      (by decide)).2⟩

/-- C5 (fails on the code): with both slots calibrated to the same angle,
here the zero-initialised table, a toggle does move the servo: the step
count 0 is decremented to 255 and the decreasing loop issues 255
intermediate commands, 251, 246, ..., before the final command 0. -/
theorem toggle_equal_angles_moves :
    prevPosOf (mkState 0 0 1).container 2 = newPosOf (mkState 0 0 1).container 2 ∧
    (servoCommands (handleToggleContainer (mkState 0 0 1)).events).length = 256 ∧
    (servoCommands (handleToggleContainer (mkState 0 0 1)).events).head? = some 251 ∧
    (servoCommands (handleToggleContainer (mkState 0 0 1)).events).get? 1 = some 246 ∧
    (servoCommands (handleToggleContainer (mkState 0 0 1)).events).getLast? = some 0 := by
  refine ⟨by decide, ?_, by decide, by decide, by decide⟩
  rw [servoCommands_handleToggleContainer,
    servoCommands_changeContainerSmooth _ _ _ (toggle_target_ne _)]
  simp [mkState, handleToggleContainer, newPosOf, prevPosOf, CONTAINER_ONE, CONTAINER_TWO,
    stepCount_of_lt]


/-! ## Calibration and selection -/

theorem responses_append (l₁ l₂ : List Event) :
    responses (l₁ ++ l₂) = responses l₁ ++ responses l₂ := by
  induction l₁ with
  | nil => rfl
  | cons e es ih => cases e <;> simp [responses, ih]

theorem responses_stepUp (n p : Nat) : responses (stepUp n p) = [] := by
  induction n generalizing p with
  | zero => rfl
  | succ n ih => simp [stepUp, responses, ih]

theorem responses_stepDown (n p : Nat) : responses (stepDown n p) = [] := by
  induction n generalizing p with
  | zero => rfl
  | succ n ih => simp [stepDown, responses, ih]

/-- A smooth transition sends no response. -/
theorem responses_changeContainerSmooth (c : ContainerLocations) (prevCon newCon : Nat) :
    responses (changeContainerSmooth c prevCon newCon) = [] := by
  unfold changeContainerSmooth
  split
  · rfl
  · simp only []
    split <;> simp [responses_append, responses_stepUp, responses_stepDown, responses]

/-- The last servo command of a smooth transition between different slot
ids is the new slot's angle. -/
theorem getLast_changeContainerSmooth (c : ContainerLocations) (prevCon newCon : Nat)
    (hne : prevCon ≠ newCon) :
    (servoCommands (changeContainerSmooth c prevCon newCon)).getLast? =
      some (newPosOf c newCon) := by
  rw [servoCommands_changeContainerSmooth c prevCon newCon hne]
  simp

/-- What the guard of `handleEditContainerPosition` tests: the first
angle against both bounds, the second against the upper bound only. -/
theorem handleEditContainerPosition_success_iff (s : State) (posC1 posC2 : Int) :
    responses (handleEditContainerPosition s posC1 posC2).events = [Response.success] ↔
      (0 ≤ posC1 ∧ posC1 ≤ 180 ∧ posC2 ≤ 180) := by
  unfold handleEditContainerPosition
  split
  · simp only [responses, true_iff]; omega
  · simp only [responses, List.cons.injEq, reduceCtorEq, and_true, false_iff]; omega

/-- C6 (fails on the code): `handleEditContainerPosition` reports success
for the pair (10, -5), whose second angle is below 0, and stores it: the
table and EEPROM byte 1 then hold 251, the value of -5 as a `uint8_t`. -/
theorem edit_accepts_negative_second_angle :
    ¬ ((0 : Int) ≤ -5 ∧ (-5 : Int) ≤ 180) ∧
    responses (handleEditContainerPosition (mkState 0 0 1) 10 (-5)).events =
      [Response.success] ∧
    (handleEditContainerPosition (mkState 0 0 1) 10 (-5)).state.container = ⟨10, 251⟩ ∧
    (handleEditContainerPosition (mkState 0 0 1) 10 (-5)).state.eeprom 1 = 251 ∧
    (mkState 0 0 1).eeprom 1 = 0 := by
  decide

/-- C7 (fails on the code): from a state whose stored angles are all in
[0,180], the single command `handleEditContainerPosition` with arguments
(10, -5) leaves the second angle at 251, in memory and in the EEPROM. -/
theorem edit_breaks_angle_range :
    InRange (mkState 0 0 1).container.containerOneLocation ∧
    InRange (mkState 0 0 1).container.containerTwoLocation ∧
    InRange ((mkState 0 0 1).eeprom 0) ∧
    InRange ((mkState 0 0 1).eeprom 1) ∧
    ¬ InRange
      (handleEditContainerPosition (mkState 0 0 1) 10 (-5)).state.container.containerTwoLocation ∧
    ¬ InRange ((handleEditContainerPosition (mkState 0 0 1) 10 (-5)).state.eeprom 1) := by
  decide

/-- C8 (fails on the code): selecting the current slot 1, in a state whose
EEPROM bytes 3 to 5 hold the erased value 255, issues no servo command,
reports success and leaves `container` and `selectedContainer` as they
are, but it changes the EEPROM: the put of the four-byte `int` 1 at
address 2 sets bytes 3, 4 and 5 to 0. Bytes 0 to 2 keep their values. -/
theorem select_current_writes_store :
    (mkState 20 160 1).selectedContainer = 1 ∧
    (handleChangeContainer (mkState 20 160 1) 1).events =
      [Event.eepromPut 2 [1, 0, 0, 0], Event.eepromCommit, Event.send Response.success] ∧
    servoCommands (handleChangeContainer (mkState 20 160 1) 1).events = [] ∧
    (handleChangeContainer (mkState 20 160 1) 1).state.container =
      (mkState 20 160 1).container ∧
    (handleChangeContainer (mkState 20 160 1) 1).state.selectedContainer = 1 ∧
    (handleChangeContainer (mkState 20 160 1) 1).state.eeprom 0 = (mkState 20 160 1).eeprom 0 ∧
    (handleChangeContainer (mkState 20 160 1) 1).state.eeprom 1 = (mkState 20 160 1).eeprom 1 ∧
    (handleChangeContainer (mkState 20 160 1) 1).state.eeprom 2 = (mkState 20 160 1).eeprom 2 ∧
    (mkState 20 160 1).eeprom 3 = 255 ∧
    (handleChangeContainer (mkState 20 160 1) 1).state.eeprom 3 = 0 ∧
    (mkState 20 160 1).eeprom 4 = 255 ∧
    (handleChangeContainer (mkState 20 160 1) 1).state.eeprom 4 = 0 ∧
    (mkState 20 160 1).eeprom 5 = 255 ∧
    (handleChangeContainer (mkState 20 160 1) 1).state.eeprom 5 = 0 := by
  decide

/-- The outcome of a select whose argument is the current slot `sel` (1
or 2), from any state: no servo command, the success response, `container`
and `selectedContainer` as before, and the put of `sel` as an `int` at
address 2, which leaves the bytes outside 2 to 5 as they are. -/
theorem handleChangeContainer_current (s : State)
    (h : s.selectedContainer = 1 ∨ s.selectedContainer = 2) :
    (handleChangeContainer s (s.selectedContainer : Int)).events =
      [Event.eepromPut 2 [s.selectedContainer, 0, 0, 0], Event.eepromCommit,
        Event.send Response.success] ∧
    servoCommands (handleChangeContainer s (s.selectedContainer : Int)).events = [] ∧
    responses (handleChangeContainer s (s.selectedContainer : Int)).events =
      [Response.success] ∧
    (handleChangeContainer s (s.selectedContainer : Int)).state.container = s.container ∧
    (handleChangeContainer s (s.selectedContainer : Int)).state.selectedContainer =
      s.selectedContainer ∧
    (∀ a, a < 2 ∨ 6 ≤ a →
      (handleChangeContainer s (s.selectedContainer : Int)).state.eeprom a = s.eeprom a) ∧
    (handleChangeContainer s (s.selectedContainer : Int)).state.eeprom 2 =
      s.selectedContainer ∧
    (handleChangeContainer s (s.selectedContainer : Int)).state.eeprom 3 = 0 ∧
    (handleChangeContainer s (s.selectedContainer : Int)).state.eeprom 4 = 0 ∧
    (handleChangeContainer s (s.selectedContainer : Int)).state.eeprom 5 = 0 ∧
    (s.eeprom 2 = s.selectedContainer ∧ s.eeprom 3 = 0 ∧ s.eeprom 4 = 0 ∧ s.eeprom 5 = 0 →
      (handleChangeContainer s (s.selectedContainer : Int)).state.eeprom = s.eeprom) := by
  obtain ⟨c, sel, mem⟩ := s
  simp only at h
  have hb : intBytes (sel : Int) = [sel, 0, 0, 0] := by
    rcases h with h | h <;> subst h <;> rfl
  have hcond : (sel : Int) < (MAX_CONTAINER : Int) ∧ (sel : Int) ≥ (CONTAINER_ONE : Int) := by
    rcases h with h | h <;> subst h <;> decide
  have hput : ∀ a, eepromPut mem 2 [sel, 0, 0, 0] a =
      if a = 2 then sel else if a = 3 ∨ a = 4 ∨ a = 5 then 0 else mem a := by
    intro a
    simp only [eepromPut, EEPROM_SIZE, List.length_cons, List.length_nil]
    by_cases h2 : a = 2
    · subst h2; simp
    by_cases h3 : a = 3
    · subst h3; simp
    by_cases h4 : a = 4
    · subst h4; simp
    by_cases h5 : a = 5
    · subst h5; simp
    have : ¬ (2 ≤ a ∧ a < 2 + (0 + 1 + 1 + 1 + 1)) := by omega
    simp [this, h2, h3, h4, h5]
  simp only [handleChangeContainer, if_pos hcond, hb, ne_eq, not_true_eq_false, if_false,
    EEPROM_SELECTED_CONTAINER, EEPROM_CONTAINER_LOCATIONS, SIZEOF_CONTAINER_LOCATIONS,
    Nat.zero_add, servoCommands, responses, true_and, hput]
  refine ⟨?_, by simp, by simp, by simp, by simp, ?_⟩
  · intro a ha
    have h2 : a ≠ 2 := by omega
    have h3 : ¬ (a = 3 ∨ a = 4 ∨ a = 5) := by omega
    simp [h2, h3]
  · rintro ⟨e2, e3, e4, e5⟩
    funext a
    rw [hput]
    by_cases h2 : a = 2
    · subst h2; simp [e2]
    by_cases h3 : a = 3
    · subst h3; simp [e3]
    by_cases h4 : a = 4
    · subst h4; simp [e4]
    by_cases h5 : a = 5
    · subst h5; simp [e5]
    simp [h2, h3, h4, h5]

/-- C9: after a select with argument 1 or 2 (which reports success) and
after a toggle, the selection that `setup` loads from the resulting EEPROM
is the `selectedContainer` the operation left in memory. -/
theorem selection_survives_restart (s : State) (n : Int) (hn : n = 1 ∨ n = 2) :
    responses (handleChangeContainer s n).events = [Response.success] ∧
    (setup (handleChangeContainer s n).state.eeprom).state.selectedContainer =
      (handleChangeContainer s n).state.selectedContainer ∧
    eepromGetSelected (handleChangeContainer s n).state.eeprom = n.toNat ∧
    responses (handleToggleContainer s).events = [Response.success] ∧
    (setup (handleToggleContainer s).state.eeprom).state.selectedContainer =
      (handleToggleContainer s).state.selectedContainer := by
  have hcond : n < (MAX_CONTAINER : Int) ∧ n ≥ (CONTAINER_ONE : Int) := by
    rcases hn with h | h <;> subst h <;> decide
  have hb : intBytes n = [n.toNat, 0, 0, 0] := by
    rcases hn with h | h <;> subst h <;> rfl
  have hu : toU8 n = n.toNat := by
    rcases hn with h | h <;> subst h <;> rfl
  have hget : eepromGetSelected (eepromPut s.eeprom EEPROM_SELECTED_CONTAINER (intBytes n)) =
      n.toNat := by
    rw [hb]
    simp [eepromGetSelected, eepromPut, EEPROM_SELECTED_CONTAINER, EEPROM_CONTAINER_LOCATIONS,
      SIZEOF_CONTAINER_LOCATIONS, EEPROM_SIZE]
  refine ⟨?_, ?_, ?_, ?_, ?_⟩
  · simp only [handleChangeContainer, if_pos hcond]
    split <;> simp [responses_append, responses_changeContainerSmooth, responses]
  · simp only [handleChangeContainer, if_pos hcond, setup]
    split
    · simp only [hget, hu]
    · rename_i hs
      simp only [hget]
      have : n = (s.selectedContainer : Int) := by simpa using hs
      rw [this]; simp
  · simp only [handleChangeContainer, if_pos hcond]
    split <;> exact hget
  · simp [handleToggleContainer, responses_append, responses_changeContainerSmooth, responses]
  · simp [handleToggleContainer, setup, eepromGetSelected, eepromPut, EEPROM_SELECTED_CONTAINER,
      EEPROM_CONTAINER_LOCATIONS, SIZEOF_CONTAINER_LOCATIONS, EEPROM_SIZE]

/-- C9, at the state with table (20, 160), slot 1 selected: select 2. -/
theorem selection_survives_restart_witness :
    ((2 : Int) = 1 ∨ (2 : Int) = 2) ∧
    (setup (handleChangeContainer (mkState 20 160 1) 2).state.eeprom).state.selectedContainer =
      (handleChangeContainer (mkState 20 160 1) 2).state.selectedContainer ∧
    (setup (handleToggleContainer (mkState 20 160 1)).state.eeprom).state.selectedContainer =
      (handleToggleContainer (mkState 20 160 1)).state.selectedContainer :=
  ⟨by decide,
    (selection_survives_restart (mkState 20 160 1) 2 (by decide)).2.1,
    (selection_survives_restart (mkState 20 160 1) 2 (by decide)).2.2.2.2⟩

/-- C10: from a state whose selection is slot 1 or slot 2, two toggles in
succession leave the selection at the original slot, and the last servo
command of the second toggle is the original slot's calibrated angle. -/
theorem toggle_twice_returns (s : State)
    (h : s.selectedContainer = 1 ∨ s.selectedContainer = 2) :
    (handleToggleContainer (handleToggleContainer s).state).state.selectedContainer =
      s.selectedContainer ∧
    (servoCommands (handleToggleContainer (handleToggleContainer s).state).events).getLast? =
      some (newPosOf s.container s.selectedContainer) ∧
    (handleToggleContainer (handleToggleContainer s).state).state.container = s.container := by
  have hsel : (handleToggleContainer (handleToggleContainer s).state).state.selectedContainer =
      s.selectedContainer := by
    rcases h with h | h <;> simp [handleToggleContainer, h, CONTAINER_ONE, CONTAINER_TWO]
  refine ⟨hsel, ?_, rfl⟩
  rw [servoCommands_handleToggleContainer,
    getLast_changeContainerSmooth _ _ _ (toggle_target_ne _), hsel]
  rfl

/-- C10, at the state with table (20, 160) and slot 1 selected: the
second toggle ends at angle 20. -/
theorem toggle_twice_returns_witness :
    ((mkState 20 160 1).selectedContainer = 1 ∨ (mkState 20 160 1).selectedContainer = 2) ∧
    (handleToggleContainer (handleToggleContainer (mkState 20 160 1)).state).state.selectedContainer
      = 1 ∧
    (servoCommands
      (handleToggleContainer (handleToggleContainer (mkState 20 160 1)).state).events).getLast? =
      some 20 :=
  ⟨by decide,
    (toggle_twice_returns (mkState 20 160 1) (by decide)).1,
    (toggle_twice_returns (mkState 20 160 1) (by decide)).2.1⟩

/-! ## Toggle and select -/

/-- The slot a toggle selects is `otherContainer` of the current one. -/
theorem handleToggleContainer_selected (s : State) :
    (handleToggleContainer s).state.selectedContainer = otherContainer s.selectedContainer :=
  rfl

theorem otherContainer_ne (sel : Nat) : sel ≠ otherContainer sel := by
  simp only [otherContainer, CONTAINER_ONE, CONTAINER_TWO]
  split <;> omega

theorem otherContainer_valid (sel : Nat) : ValidSelection (otherContainer sel) := by
  simp only [otherContainer, ValidSelection]
  split <;> simp

/-- The outcome of a select whose argument is a valid slot other than the
current selection. -/
theorem handleChangeContainer_other (s : State) (n : Nat)
    (hn : n = 1 ∨ n = 2) (hne : n ≠ s.selectedContainer) :
    handleChangeContainer s (n : Int) =
      { state :=
          { container := s.container
            selectedContainer := n
            eeprom := eepromPut s.eeprom EEPROM_SELECTED_CONTAINER [n, 0, 0, 0] }
        events :=
          [Event.eepromPut EEPROM_SELECTED_CONTAINER [n, 0, 0, 0], Event.eepromCommit,
            Event.send Response.success] ++
          changeContainerSmooth s.container s.selectedContainer n } := by
  have hcond : (n : Int) < (MAX_CONTAINER : Int) ∧ (n : Int) ≥ (CONTAINER_ONE : Int) := by
    rcases hn with h | h <;> subst h <;> decide
  have hb : intBytes (n : Int) = [n, 0, 0, 0] := by
    rcases hn with h | h <;> subst h <;> rfl
  have hu : toU8 (n : Int) = n := by
    rcases hn with h | h <;> subst h <;> rfl
  have hne' : (n : Int) ≠ (s.selectedContainer : Int) := by
    intro h; exact hne (by exact_mod_cast h)
  simp only [handleChangeContainer, if_pos hcond, if_pos hne', hb, hu]

/-- C11: a toggle and a select of the other slot issue the same servo
commands, send the same response, leave the same in-memory selection, and
leave an EEPROM from which `setup` loads the same selection. This holds
from every state, so in particular from every state whose selection is
slot 1 or slot 2; the slot selected is 1 or 2 and differs from the current
one. A toggle issues at least one servo command from every state. -/
theorem toggle_matches_select_other (s : State) :
    servoCommands (handleToggleContainer s).events =
      servoCommands (handleChangeContainer s (otherContainer s.selectedContainer : Nat)).events ∧
    responses (handleToggleContainer s).events =
      responses (handleChangeContainer s (otherContainer s.selectedContainer : Nat)).events ∧
    (handleToggleContainer s).state.selectedContainer =
      (handleChangeContainer s
        (otherContainer s.selectedContainer : Nat)).state.selectedContainer ∧
    (setup (handleToggleContainer s).state.eeprom).state.selectedContainer =
      (setup (handleChangeContainer s
        (otherContainer s.selectedContainer : Nat)).state.eeprom).state.selectedContainer ∧
    (otherContainer s.selectedContainer = 1 ∨ otherContainer s.selectedContainer = 2) ∧
    otherContainer s.selectedContainer ≠ s.selectedContainer ∧
    ∀ t : State, 1 ≤ (servoCommands (handleToggleContainer t).events).length := by
  have hv : otherContainer s.selectedContainer = 1 ∨ otherContainer s.selectedContainer = 2 :=
    otherContainer_valid _
  have hne := (otherContainer_ne s.selectedContainer).symm
  rw [handleChangeContainer_other s _ hv hne]
  refine ⟨?_, ?_, rfl, ?_, hv, hne, ?_⟩
  · simp [handleToggleContainer, otherContainer, servoCommands_append, servoCommands]
  · simp [handleToggleContainer, otherContainer, responses_append, responses]
  · simp [handleToggleContainer, setup, eepromGetSelected, eepromPut, EEPROM_SELECTED_CONTAINER,
      EEPROM_CONTAINER_LOCATIONS, SIZEOF_CONTAINER_LOCATIONS, EEPROM_SIZE, otherContainer]
  · intro t
    rw [servoCommands_handleToggleContainer,
      servoCommands_changeContainerSmooth _ _ _ (toggle_target_ne t)]
    simp

/-- C11, at the state with table (20, 160) and slot 1 selected: toggle
and select of slot 2 issue the same commands and the same response. -/
theorem toggle_matches_select_other_witness :
    ((mkState 20 160 1).selectedContainer = 1 ∨ (mkState 20 160 1).selectedContainer = 2) ∧
    servoCommands (handleToggleContainer (mkState 20 160 1)).events =
      servoCommands (handleChangeContainer (mkState 20 160 1) 2).events ∧
    responses (handleToggleContainer (mkState 20 160 1)).events =
      responses (handleChangeContainer (mkState 20 160 1) 2).events :=
  ⟨by decide,
    (toggle_matches_select_other (mkState 20 160 1)).1,
    (toggle_matches_select_other (mkState 20 160 1)).2.1⟩

/-! ## Order of the statements of a slot change -/

theorem stepUp_motion (n p : Nat) : ∀ e ∈ stepUp n p, IsMotion e := by
  induction n generalizing p with
  | zero => intro e he; simp [stepUp] at he
  | succ n ih =>
    intro e he
    simp only [stepUp, List.mem_cons] at he
    rcases he with h | h | h
    · subst h; trivial
    · subst h; trivial
    · exact ih _ e h

theorem stepDown_motion (n p : Nat) : ∀ e ∈ stepDown n p, IsMotion e := by
  induction n generalizing p with
  | zero => intro e he; simp [stepDown] at he
  | succ n ih =>
    intro e he
    simp only [stepDown, List.mem_cons] at he
    rcases he with h | h | h
    · subst h; trivial
    · subst h; trivial
    · exact ih _ e h

/-- A smooth transition performs servo commands and delays only. -/
theorem changeContainerSmooth_motion (c : ContainerLocations) (prevCon newCon : Nat) :
    ∀ e ∈ changeContainerSmooth c prevCon newCon, IsMotion e := by
  intro e he
  unfold changeContainerSmooth at he
  split at he
  · simp at he
  · simp only [] at he
    split at he
    · rcases List.mem_append.1 he with h | h
      · exact stepUp_motion _ _ e h
      · simp only [List.mem_singleton] at h; subst h; trivial
    · rcases List.mem_append.1 he with h | h
      · exact stepDown_motion _ _ e h
      · simp only [List.mem_singleton] at h; subst h; trivial

/-- Running effects that are servo commands and delays leaves the state
as it is and records them. -/
theorem foldl_applyStep_motion (l : List Event) (hl : ∀ e ∈ l, IsMotion e) (o : Outcome) :
    (l.map Step.effect).foldl applyStep o = { state := o.state, events := o.events ++ l } := by
  induction l generalizing o with
  | nil => simp
  | cons e es ih =>
    have he := hl e (List.mem_cons_self _ _)
    have hes : ∀ x ∈ es, IsMotion x := fun x hx => hl x (List.mem_cons_of_mem _ hx)
    simp only [List.map_cons, List.foldl_cons]
    rw [ih hes]
    cases e <;> simp [IsMotion] at he <;> simp [applyStep]

/-- Running the statements of `handleToggleContainer` gives the outcome of
the handler. -/
theorem runSteps_handleToggleContainerSteps (s : State) :
    runSteps s (handleToggleContainerSteps s) = handleToggleContainer s := by
  simp only [runSteps, handleToggleContainerSteps, List.foldl_append, List.foldl_cons,
    List.foldl_nil, applyStep, List.nil_append, List.cons_append]
  rw [foldl_applyStep_motion _ (changeContainerSmooth_motion _ _ _)]
  simp [applyStep, handleToggleContainer, otherContainer]

/-- Running the statements of `handleChangeContainer` gives the outcome of
the handler. -/
theorem runSteps_handleChangeContainerSteps (s : State) (containerNum : Int) :
    runSteps s (handleChangeContainerSteps s containerNum) =
      handleChangeContainer s containerNum := by
  unfold runSteps handleChangeContainerSteps handleChangeContainer
  split
  · split
    · simp only [List.foldl_append, List.foldl_cons, List.foldl_nil, applyStep,
        List.nil_append, List.cons_append]
      rw [foldl_applyStep_motion _ (changeContainerSmooth_motion _ _ _)]
      simp [applyStep]
    · simp [applyStep]
  · simp [applyStep]

/-- C12: a toggle, and a select of a valid slot other than the current
one, execute their statements in this order: the put of the new selection
at the selection address, the commit, the success response, then the
effects of the smooth transition, which are servo commands and delays only
and include at least one servo command, and last the assignment of the new
selection to `selectedContainer`. The byte put at the selection address is
the new selection. -/
theorem slot_change_statement_order (s : State) (n : Nat)
    (hn : n = 1 ∨ n = 2) (hne : n ≠ s.selectedContainer) :
    (handleToggleContainerSteps s =
        [Step.effect
            (Event.eepromPut EEPROM_SELECTED_CONTAINER [otherContainer s.selectedContainer]),
          Step.effect Event.eepromCommit,
          Step.effect (Event.send Response.success)] ++
        (changeContainerSmooth s.container s.selectedContainer
          (otherContainer s.selectedContainer)).map Step.effect ++
        [Step.setSelected (otherContainer s.selectedContainer)] ∧
      (∀ e ∈ changeContainerSmooth s.container s.selectedContainer
          (otherContainer s.selectedContainer), IsMotion e) ∧
      1 ≤ (servoCommands (changeContainerSmooth s.container s.selectedContainer
          (otherContainer s.selectedContainer))).length ∧
      runSteps s (handleToggleContainerSteps s) = handleToggleContainer s) ∧
    (handleChangeContainerSteps s (n : Int) =
        [Step.effect (Event.eepromPut EEPROM_SELECTED_CONTAINER [n, 0, 0, 0]),
          Step.effect Event.eepromCommit,
          Step.effect (Event.send Response.success)] ++
        (changeContainerSmooth s.container s.selectedContainer n).map Step.effect ++
        [Step.setSelected n] ∧
      (∀ e ∈ changeContainerSmooth s.container s.selectedContainer n, IsMotion e) ∧
      1 ≤ (servoCommands (changeContainerSmooth s.container s.selectedContainer n)).length ∧
      runSteps s (handleChangeContainerSteps s (n : Int)) = handleChangeContainer s (n : Int)) := by
  have hlen : ∀ q : Nat, s.selectedContainer ≠ q →
      1 ≤ (servoCommands (changeContainerSmooth s.container s.selectedContainer q)).length := by
    intro q hq
    rw [servoCommands_changeContainerSmooth _ _ _ hq]
    simp
  refine ⟨⟨rfl, changeContainerSmooth_motion _ _ _, hlen _ (otherContainer_ne _),
    runSteps_handleToggleContainerSteps s⟩, ?_, changeContainerSmooth_motion _ _ _,
    hlen _ (Ne.symm hne), runSteps_handleChangeContainerSteps s _⟩
  have hcond : (n : Int) < (MAX_CONTAINER : Int) ∧ (n : Int) ≥ (CONTAINER_ONE : Int) := by
    rcases hn with h | h <;> subst h <;> decide
  have hb : intBytes (n : Int) = [n, 0, 0, 0] := by
    rcases hn with h | h <;> subst h <;> rfl
  have hu : toU8 (n : Int) = n := by
    rcases hn with h | h <;> subst h <;> rfl
  have hne' : (n : Int) ≠ (s.selectedContainer : Int) := by
    intro h; exact hne (by exact_mod_cast h)
  simp only [handleChangeContainerSteps, if_pos hcond, if_pos hne', hb, hu, List.append_assoc]

/-- C12, at the table (20, 160) with slot 1 selected: the toggle puts
slot 2 at address 2, commits and reports success before the first servo
command, 25, and assigns `selectedContainer` after the last one, 160. -/
theorem slot_change_statement_order_witness :
    (((2 : Nat) = 1 ∨ (2 : Nat) = 2) ∧ (2 : Nat) ≠ (mkState 20 160 1).selectedContainer) ∧
    (handleToggleContainerSteps (mkState 20 160 1)).take 4 =
      [Step.effect (Event.eepromPut 2 [2]), Step.effect Event.eepromCommit,
        Step.effect (Event.send Response.success), Step.effect (Event.servoWrite 25)] ∧
    (handleToggleContainerSteps (mkState 20 160 1)).drop 57 =
      [Step.effect (Event.servoWrite 160), Step.setSelected 2] ∧
    runSteps (mkState 20 160 1) (handleToggleContainerSteps (mkState 20 160 1)) =
      handleToggleContainer (mkState 20 160 1) :=
  ⟨⟨by decide, by decide⟩, by decide, by decide,
    (slot_change_statement_order (mkState 20 160 1) 2 (by decide) (by decide)).1.2.2.2⟩

/-! ## Initialisation and the selection invariant -/

/-- Serving one request keeps a valid selection valid. -/
theorem handleClient_valid (s : State) (h : ValidSelection s.selectedContainer)
    (c : Command) : ValidSelection (handleClient s c).state.selectedContainer := by
  cases c with
  | servoMove position =>
    simp only [handleClient, handleServoMove]
    split <;> exact h
  | editContainerPosition posC1 posC2 =>
    simp only [handleClient, handleEditContainerPosition]
    split <;> exact h
  | changeContainer containerNum =>
    simp only [handleClient, handleChangeContainer]
    split
    · rename_i hc
      split
      · have h1 : containerNum = 1 ∨ containerNum = 2 := by
          simp only [MAX_CONTAINER, CONTAINER_ONE] at hc
          omega
        rcases h1 with h1 | h1 <;> subst h1 <;> simp [ValidSelection, toU8, CONTAINER_ONE,
          CONTAINER_TWO]
      · exact h
    · exact h
  | toggleContainer => exact otherContainer_valid _

/-- Serving a sequence of requests keeps a valid selection valid. -/
theorem runCommands_valid (cmds : List Command) (s : State)
    (h : ValidSelection s.selectedContainer) :
    ValidSelection (runCommands s cmds).selectedContainer := by
  induction cmds generalizing s with
  | nil => exact h
  | cons c cs ih => exact ih _ (handleClient_valid s h c)

/-- C13 (fails on the code): from an erased EEPROM, every byte 255,
`setup` loads the selection 255, which is neither slot 1 nor slot 2, and
commands the servo to 255; a raw servo move, a calibration and a rejected
select leave the selection at 255. -/
theorem setup_loads_invalid_selection :
    (setup (fun _ => 255)).state.selectedContainer = 255 ∧
    (setup (fun _ => 255)).state.container = ⟨255, 255⟩ ∧
    (setup (fun _ => 255)).events = [Event.servoWrite 255] ∧
    ¬ ValidSelection (setup (fun _ => 255)).state.selectedContainer ∧
    ¬ ValidSelection (runCommands (setup (fun _ => 255)).state
      [Command.servoMove 90, Command.editContainerPosition 20 160,
        Command.changeContainer 3]).selectedContainer := by
  decide

/-- C14: for every EEPROM content, `setup` loads the table from bytes 0
and 1 and the selection from byte 2, and issues exactly one effect, a
servo command to the loaded angle of the loaded selection: the angle of
container two when the selection is 2, that of container one otherwise. -/
theorem setup_loads_and_snaps (mem : Nat → Nat) :
    (setup mem).state.container = ⟨mem 0, mem 1⟩ ∧
    (setup mem).state.selectedContainer = mem 2 ∧
    (setup mem).state.eeprom = mem ∧
    (setup mem).events =
      [Event.servoWrite
        (newPosOf (setup mem).state.container (setup mem).state.selectedContainer)] ∧
    servoCommands (setup mem).events = [if mem 2 = 2 then mem 1 else mem 0] ∧
    (servoCommands (setup mem).events).length = 1 :=
  ⟨rfl, rfl, rfl, rfl, rfl, rfl⟩

/-! ## Calibration writes and the EEPROM layout -/

theorem toU8_of_inRange (x : Int) (h0 : 0 ≤ x) (h1 : x ≤ 180) : toU8 x = x.toNat := by
  unfold toU8
  rw [Int.emod_eq_of_lt h0 (by omega)]

/-- A put leaves the bytes below its address as they are. -/
theorem eepromPut_below (mem : Nat → Nat) (addr : Nat) (bytes : List Nat) (a : Nat)
    (h : a < addr) : eepromPut mem addr bytes a = mem a := by
  unfold eepromPut
  split
  · rfl
  · have : ¬ (addr ≤ a ∧ a < addr + bytes.length) := by omega
    simp [this]

/-- A put leaves the bytes past its last byte as they are. -/
theorem eepromPut_above (mem : Nat → Nat) (addr : Nat) (bytes : List Nat) (a : Nat)
    (h : addr + bytes.length ≤ a) : eepromPut mem addr bytes a = mem a := by
  unfold eepromPut
  split
  · rfl
  · have : ¬ (addr ≤ a ∧ a < addr + bytes.length) := by omega
    simp [this]

/-- The bytes each handler can change: `handleEditContainerPosition` only
bytes 0 and 1, `handleToggleContainer` only byte 2, `handleChangeContainer`
only bytes 2 to 5, `handleServoMove` none. -/
theorem eeprom_frame (s : State) (a : Nat) :
    (∀ posC1 posC2 : Int, 2 ≤ a →
      (handleEditContainerPosition s posC1 posC2).state.eeprom a = s.eeprom a) ∧
    (a ≠ 2 → (handleToggleContainer s).state.eeprom a = s.eeprom a) ∧
    (∀ containerNum : Int, a < 2 ∨ 6 ≤ a →
      (handleChangeContainer s containerNum).state.eeprom a = s.eeprom a) ∧
    (∀ position : Int, (handleServoMove s position).state.eeprom a = s.eeprom a) := by
  refine ⟨?_, ?_, ?_, ?_⟩
  · intro posC1 posC2 ha
    unfold handleEditContainerPosition
    split
    · simp only []
      apply eepromPut_above
      simp only [EEPROM_CONTAINER_LOCATIONS, containerBytes, List.length_cons, List.length_nil]
      omega
    · rfl
  · intro ha
    simp only [handleToggleContainer]
    rcases Nat.lt_or_gt_of_ne ha with h | h
    · apply eepromPut_below
      simp only [EEPROM_SELECTED_CONTAINER, EEPROM_CONTAINER_LOCATIONS,
        SIZEOF_CONTAINER_LOCATIONS]
      omega
    · apply eepromPut_above
      simp only [EEPROM_SELECTED_CONTAINER, EEPROM_CONTAINER_LOCATIONS,
        SIZEOF_CONTAINER_LOCATIONS, List.length_cons, List.length_nil]
      omega
  · intro containerNum ha
    have key : eepromPut s.eeprom EEPROM_SELECTED_CONTAINER (intBytes containerNum) a =
        s.eeprom a := by
      rcases ha with h | h
      · apply eepromPut_below
        simp only [EEPROM_SELECTED_CONTAINER, EEPROM_CONTAINER_LOCATIONS,
          SIZEOF_CONTAINER_LOCATIONS]
        omega
      · apply eepromPut_above
        simp only [EEPROM_SELECTED_CONTAINER, EEPROM_CONTAINER_LOCATIONS,
          SIZEOF_CONTAINER_LOCATIONS, intBytes, List.length_cons, List.length_nil]
        omega
    unfold handleChangeContainer
    split
    · split <;> exact key
    · rfl
  · intro position
    unfold handleServoMove
    split <;> rfl

/-- C15: for `c1` and `c2` in [0,180], `handleEditContainerPosition`
reports success, sets the table to (c1, c2), issues no servo command,
leaves the selection as it is, and leaves an EEPROM from which the
calibration record, as `setup` loads it, is (c1, c2). -/
theorem edit_sets_and_persists (s : State) (c1 c2 : Int)
    (h1 : 0 ≤ c1 ∧ c1 ≤ 180) (h2 : 0 ≤ c2 ∧ c2 ≤ 180) :
    responses (handleEditContainerPosition s c1 c2).events = [Response.success] ∧
    (handleEditContainerPosition s c1 c2).state.container = ⟨c1.toNat, c2.toNat⟩ ∧
    servoCommands (handleEditContainerPosition s c1 c2).events = [] ∧
    (handleEditContainerPosition s c1 c2).state.selectedContainer = s.selectedContainer ∧
    eepromGetContainer (handleEditContainerPosition s c1 c2).state.eeprom =
      ⟨c1.toNat, c2.toNat⟩ ∧
    (setup (handleEditContainerPosition s c1 c2).state.eeprom).state.container =
      ⟨c1.toNat, c2.toNat⟩ := by
  have hcond : c1 ≤ 180 ∧ c1 ≥ 0 ∧ c2 ≤ 180 ∧ c1 ≥ 0 := ⟨h1.2, h1.1, h2.2, h1.1⟩
  have e1 := toU8_of_inRange c1 h1.1 h1.2
  have e2 := toU8_of_inRange c2 h2.1 h2.2
  simp only [handleEditContainerPosition, if_pos hcond, e1, e2, responses, servoCommands,
    setup, true_and]
  simp [eepromGetContainer, eepromPut, containerBytes, EEPROM_CONTAINER_LOCATIONS, EEPROM_SIZE]

/-- C15, at the arguments (20, 160) from the state with table (0, 0). -/
theorem edit_sets_and_persists_witness :
    (((0 : Int) ≤ 20 ∧ (20 : Int) ≤ 180) ∧ ((0 : Int) ≤ 160 ∧ (160 : Int) ≤ 180)) ∧
    (handleEditContainerPosition (mkState 0 0 1) 20 160).state.container = ⟨20, 160⟩ ∧
    (setup (handleEditContainerPosition (mkState 0 0 1) 20 160).state.eeprom).state.container =
      ⟨20, 160⟩ :=
  ⟨⟨by decide, by decide⟩,
    (edit_sets_and_persists (mkState 0 0 1) 20 160 (by decide) (by decide)).2.1,
    (edit_sets_and_persists (mkState 0 0 1) 20 160 (by decide) (by decide)).2.2.2.2.2⟩

/-- C16 (fails on the code): in the successful call with arguments
(20, 160), `handleEditContainerPosition` puts the table, then sends the
success response, and only then commits; the two slot-change handlers
commit before they send. -/
theorem edit_sends_success_before_commit :
    (handleEditContainerPosition (mkState 0 0 1) 20 160).events =
      [Event.eepromPut 0 [20, 160], Event.send Response.success, Event.eepromCommit] ∧
    (handleEditContainerPosition (mkState 0 0 1) 20 160).events.indexOf
        (Event.send Response.success) <
      (handleEditContainerPosition (mkState 0 0 1) 20 160).events.indexOf Event.eepromCommit ∧
    (handleChangeContainer (mkState 0 0 1) 1).events =
      [Event.eepromPut 2 [1, 0, 0, 0], Event.eepromCommit, Event.send Response.success] ∧
    (handleToggleContainer (mkState 0 0 1)).events.take 3 =
      [Event.eepromPut 2 [2], Event.eepromCommit, Event.send Response.success] := by
  refine ⟨by decide, by decide, by decide, by decide⟩

/-- C17 (fails on the code): a select of slot 2, in a state whose EEPROM
bytes 3 to 5 hold 255, changes bytes 3, 4 and 5 to 0, since it puts the
four bytes of an `int` at address 2; the toggle from the same state puts
one byte and leaves byte 3 at 255. -/
theorem select_writes_past_selection_byte :
    (mkState 20 160 1).eeprom 3 = 255 ∧
    (handleChangeContainer (mkState 20 160 1) 2).events.head? =
      some (Event.eepromPut 2 [2, 0, 0, 0]) ∧
    (handleChangeContainer (mkState 20 160 1) 2).state.eeprom 2 = 2 ∧
    (handleChangeContainer (mkState 20 160 1) 2).state.eeprom 3 = 0 ∧
    (handleChangeContainer (mkState 20 160 1) 2).state.eeprom 4 = 0 ∧
    (handleChangeContainer (mkState 20 160 1) 2).state.eeprom 5 = 0 ∧
    (handleToggleContainer (mkState 20 160 1)).events.head? =
      some (Event.eepromPut 2 [2]) ∧
    (handleToggleContainer (mkState 20 160 1)).state.eeprom 3 = 255 := by
  refine ⟨by decide, by decide, by decide, by decide, by decide, by decide, by decide, by decide⟩

/-! ## Wraparound of the step count, and frame properties of slot changes -/

/-- C18: between two different slot ids whose calibrated angles are less
than 5 apart, equal angles included, the step count is 255 and the servo
commands are 255 intermediate positions followed by the target, 256 in
all. When the target is above the start the intermediate positions are
`start + 5k` modulo 256; otherwise, so also when the angles are equal,
they are `start - 5k` modulo 256, for `k = 1, ..., 255`. -/
theorem smooth_change_near_wraps (c : ContainerLocations) (prevCon newCon : Nat)
    (hne : prevCon ≠ newCon)
    (hd : newPosOf c newCon - prevPosOf c newCon < 5 ∧
      prevPosOf c newCon - newPosOf c newCon < 5) :
    stepCount (newPosOf c newCon - prevPosOf c newCon) = 255 ∧
    stepCount (prevPosOf c newCon - newPosOf c newCon) = 255 ∧
    (newPosOf c newCon > prevPosOf c newCon →
      servoCommands (changeContainerSmooth c prevCon newCon) =
        (List.range 255).map (fun k => (prevPosOf c newCon + 5 * (k + 1)) % 256) ++
          [newPosOf c newCon]) ∧
    (newPosOf c newCon ≤ prevPosOf c newCon →
      servoCommands (changeContainerSmooth c prevCon newCon) =
        (List.range 255).map
            (fun (k : Nat) => (((prevPosOf c newCon : Int) - 5 * ((k : Int) + 1)) % 256).toNat) ++
          [newPosOf c newCon]) ∧
    (servoCommands (changeContainerSmooth c prevCon newCon)).length = 256 := by
  have hu := stepCount_of_lt _ hd.1
  have hdn := stepCount_of_lt _ hd.2
  rw [servoCommands_changeContainerSmooth c prevCon newCon hne, hu, hdn]
  refine ⟨rfl, rfl, ?_, ?_, ?_⟩
  · intro hgt
    rw [if_pos hgt]
  · intro hle
    rw [if_neg (by omega)]
    congr 1
    refine List.map_congr_left fun k _ => ?_
    omega
  · split <;> simp

/-- C18, at the tables (10, 12), slot 1 to slot 2, and (0, 0). -/
theorem smooth_change_near_wraps_witness :
    ((1 : Nat) ≠ 2 ∧
      newPosOf ⟨10, 12⟩ 2 - prevPosOf ⟨10, 12⟩ 2 < 5 ∧
      prevPosOf ⟨10, 12⟩ 2 - newPosOf ⟨10, 12⟩ 2 < 5) ∧
    (servoCommands (changeContainerSmooth ⟨10, 12⟩ 1 2)).length = 256 ∧
    (servoCommands (changeContainerSmooth ⟨10, 12⟩ 1 2)).take 3 = [15, 20, 25] ∧
    (servoCommands (changeContainerSmooth ⟨0, 0⟩ 1 2)).take 3 = [251, 246, 241] :=
  ⟨⟨by decide, by decide, by decide⟩,
    (smooth_change_near_wraps ⟨10, 12⟩ 1 2 (by decide) ⟨by decide, by decide⟩).2.2.2.2,
    by decide, by decide⟩

/-- C19: serving any request from a state whose selection is slot 1 or
slot 2 leaves the selection at slot 1 or slot 2, and a toggle leaves it
at slot 1 or slot 2 from every state. -/
theorem selection_validity_preserved (s : State) (h : ValidSelection s.selectedContainer)
    (c : Command) :
    ValidSelection (handleClient s c).state.selectedContainer ∧
    ∀ t : State, ValidSelection (handleToggleContainer t).state.selectedContainer :=
  ⟨handleClient_valid s h c, fun t => otherContainer_valid t.selectedContainer⟩

/-- C19, at a select with the invalid argument 7 from slot 2, and at a
toggle from the invalid selection 255. -/
theorem selection_validity_preserved_witness :
    ValidSelection (mkState 20 160 2).selectedContainer ∧
    ValidSelection
      (handleClient (mkState 20 160 2) (Command.changeContainer 7)).state.selectedContainer ∧
    ValidSelection (handleToggleContainer (mkState 20 160 255)).state.selectedContainer :=
  ⟨by decide,
    (selection_validity_preserved (mkState 20 160 2) (by decide) (Command.changeContainer 7)).1,
    (selection_validity_preserved (mkState 20 160 2) (by decide) (Command.changeContainer 7)).2
      (mkState 20 160 255)⟩

/-- C20: a select with any argument, a toggle and a raw servo move leave
the in-memory table as it is and leave EEPROM bytes 0 and 1, the
calibration record, as they are. -/
theorem slot_change_keeps_calibration (s : State) (containerNum position : Int) :
    ((handleChangeContainer s containerNum).state.container = s.container ∧
      (handleChangeContainer s containerNum).state.eeprom 0 = s.eeprom 0 ∧
      (handleChangeContainer s containerNum).state.eeprom 1 = s.eeprom 1 ∧
      eepromGetContainer (handleChangeContainer s containerNum).state.eeprom =
        eepromGetContainer s.eeprom) ∧
    ((handleToggleContainer s).state.container = s.container ∧
      (handleToggleContainer s).state.eeprom 0 = s.eeprom 0 ∧
      (handleToggleContainer s).state.eeprom 1 = s.eeprom 1 ∧
      eepromGetContainer (handleToggleContainer s).state.eeprom =
        eepromGetContainer s.eeprom) ∧
    ((handleServoMove s position).state.container = s.container ∧
      (handleServoMove s position).state.eeprom 0 = s.eeprom 0 ∧
      (handleServoMove s position).state.eeprom 1 = s.eeprom 1 ∧
      eepromGetContainer (handleServoMove s position).state.eeprom =
        eepromGetContainer s.eeprom) := by
  have c0 := (eeprom_frame s 0).2.2.1 containerNum (Or.inl (by decide))
  have c1 := (eeprom_frame s 1).2.2.1 containerNum (Or.inl (by decide))
  have t0 := (eeprom_frame s 0).2.1 (by decide)
  have t1 := (eeprom_frame s 1).2.1 (by decide)
  have m0 := (eeprom_frame s 0).2.2.2 position
  have m1 := (eeprom_frame s 1).2.2.2 position
  refine ⟨⟨?_, c0, c1, ?_⟩, ⟨rfl, t0, t1, ?_⟩, ⟨?_, m0, m1, ?_⟩⟩
  · unfold handleChangeContainer
    split
    · split <;> rfl
    · rfl
  · simp only [eepromGetContainer, EEPROM_CONTAINER_LOCATIONS, Nat.zero_add, c0, c1]
  · simp only [eepromGetContainer, EEPROM_CONTAINER_LOCATIONS, Nat.zero_add, t0, t1]
  · unfold handleServoMove
    split <;> rfl
  · simp only [eepromGetContainer, EEPROM_CONTAINER_LOCATIONS, Nat.zero_add, m0, m1]

end CatFeeder
